import Mathlib

/-!
Shallow embedding of the hishtory sync-relay server
(`backend/server/server.go`) over an explicit relational-store state.

The gorm store is modelled as lists of rows, one list per table, in
insertion order.  `Create` appends a row, `Find`/`Where` filters,
`Exec UPDATE` maps over rows, `Delete` filters matching rows out.
Timestamps (`time.Now()`) are passed in explicitly as `Nat` arguments.
Handlers that can `panic` (or run a rolled-back transaction) return the
store state reached together with an `Except String Unit` outcome; a
`.error` result models a panic, with the state holding exactly the
effects committed before the panic (gorm auto-commits each statement
outside an explicit transaction).

The row types live in the `shared` Go package, which is not part of the
source tree; their fields are modelled from the spec's data model (§3)
and from how `server.go` and the client (`client/tui/tui.go`) use them.
-/

/-- Modelled from the spec: `shared.Device` (the shared package is not in
the source tree).  Spec §3: `{ userId, deviceId, registrationIp,
registrationDate }`, matching the fields `server.go` constructs in
`apiRegisterHandler`.  Per spec §6 only UsageData carries a uniqueness
constraint, so the device table is a plain additive list. -/
structure Device where
  userId : String
  deviceId : String
  registrationIp : String
  registrationDate : Nat
deriving DecidableEq, Repr

/-- Modelled from the spec: `shared.EncHistoryEntry` (the shared package
is not in the source tree).  Spec §3 calls the logical timestamp
`endTime`; `server.go` matches it as the `date` column, so the field is
named `date` here.  `encryptedData` stands for the opaque payload. -/
structure EncHistoryEntry where
  userId : String
  deviceId : String
  encryptedData : String
  date : Nat
  entryId : String
  readCount : Nat
deriving DecidableEq, Repr

/-- `UsageData` as declared in `server.go`. -/
structure UsageData where
  userId : String
  deviceId : String
  lastUsed : Nat
  numEntriesHandled : Nat
deriving DecidableEq, Repr

/-- Modelled from the spec: `shared.DumpRequest` (the shared package is
not in the source tree).  Spec §3: `{ userId, requestingDeviceId,
requestTime }`, matching the fields `apiRegisterHandler` constructs. -/
structure DumpRequest where
  userId : String
  requestingDeviceId : String
  requestTime : Nat
deriving DecidableEq, Repr

/-- Modelled from the spec: `shared.MessageIdentifier` (the shared
package is not in the source tree).  The client builds it with
`{DeviceId, EndTime, EntryId}`; `server.go` reads the device id and the
timestamp (as `message.Date`) and ignores the entry id. -/
structure MessageIdentifier where
  deviceId : String
  date : Nat
  entryId : String
deriving DecidableEq, Repr

/-- Modelled from the spec: `shared.DeletionRequest` (the shared package
is not in the source tree).  Spec §3: `{ userId, destinationDeviceId,
messages, sendTime, readCount }`, matching the fields `server.go`
reads and writes. -/
structure DeletionRequest where
  userId : String
  destinationDeviceId : String
  messages : List MessageIdentifier
  sendTime : Nat
  readCount : Nat
deriving DecidableEq, Repr

/-- The relational store: one list of rows per table, insertion order. -/
structure ServerState where
  encHistoryEntries : List EncHistoryEntry
  devices : List Device
  usageData : List UsageData
  dumpRequests : List DumpRequest
  deletionRequests : List DeletionRequest
deriving DecidableEq, Repr

def ServerState.empty : ServerState :=
  { encHistoryEntries := [], devices := [], usageData := [],
    dumpRequests := [], deletionRequests := [] }

/-- `updateUsageData` (server.go): find the (userId, deviceId) usage row;
create it if absent, otherwise bump `last_used` and, when `numEntries > 0`,
add `numEntries` to `num_entries_handled`. -/
def updateUsageData (userId deviceId : String) (numEntries : Nat) (now : Nat)
    (s : ServerState) : ServerState :=
  let matching := s.usageData.filter (fun u => u.userId == userId && u.deviceId == deviceId)
  if matching.isEmpty then
    { s with usageData := s.usageData ++
        [{ userId := userId, deviceId := deviceId, lastUsed := now,
           numEntriesHandled := numEntries }] }
  else
    let touched := s.usageData.map (fun u =>
      if u.userId == userId && u.deviceId == deviceId then { u with lastUsed := now } else u)
    let counted :=
      if numEntries > 0 then
        touched.map (fun u =>
          if u.userId == userId && u.deviceId == deviceId then
            { u with numEntriesHandled := u.numEntriesHandled + numEntries }
          else u)
      else touched
    { s with usageData := counted }

/-- The fan-out step of `apiSubmitHandler`: one copy of the entry per
registered device of the entry's user, with `DeviceId` rewritten. -/
def submitFanOut (e : EncHistoryEntry) (devices : List Device) : List EncHistoryEntry :=
  devices.map (fun d => { e with deviceId := d.deviceId })

/-- The per-entry loop of `apiSubmitHandler` (server.go): for each entry,
update telemetry, look up the user's devices, panic when none exist,
otherwise insert one rewritten copy per device. -/
def submitEntries (now : Nat) (s : ServerState) :
    List EncHistoryEntry → ServerState × Except String Unit
  | [] => (s, Except.ok ())
  | e :: rest =>
    let s1 := updateUsageData e.userId e.deviceId 1 now s
    let devices := s1.devices.filter (fun d => d.userId == e.userId)
    if devices.isEmpty then
      (s1, Except.error ("found no devices associated with user_id=" ++ e.userId))
    else
      submitEntries now
        { s1 with encHistoryEntries := s1.encHistoryEntries ++ submitFanOut e devices }
        rest

/-- `apiSubmitHandler` (server.go), with the decoded request body as the
entry list. -/
def apiSubmitHandler (entries : List EncHistoryEntry) (now : Nat) (s : ServerState) :
    ServerState × Except String Unit :=
  submitEntries now s entries

/-- `apiBootstrapHandler` (server.go): update telemetry, then return every
entry row of the user, regardless of mailbox or read count. -/
def apiBootstrapHandler (userId deviceId : String) (now : Nat) (s : ServerState) :
    ServerState × List EncHistoryEntry :=
  let s1 := updateUsageData userId deviceId 0 now s
  (s1, s1.encHistoryEntries.filter (fun e => e.userId == userId))

/-- Does entry row `e` match the disjunctive delete of
`applyDeletionRequestsToBackend` for `request`?  One disjunct per
message: `user_id = request.UserId AND device_id = message.DeviceId AND
date = message.Date`. -/
def matchesDeletionRequest (request : DeletionRequest) (e : EncHistoryEntry) : Bool :=
  request.messages.any (fun m =>
    e.userId == request.userId && e.deviceId == m.deviceId && e.date == m.date)

/-- `applyDeletionRequestsToBackend` (server.go): delete every entry row
matching any message of the request (starting from `Where("false")`, so
an empty message list deletes nothing); returns the number of rows
deleted. -/
def applyDeletionRequestsToBackend (request : DeletionRequest) (s : ServerState) :
    Nat × ServerState :=
  let remaining := s.encHistoryEntries.filter (fun e => !(matchesDeletionRequest request e))
  (s.encHistoryEntries.length - remaining.length,
   { s with encHistoryEntries := remaining })

/-- The row update performed by the query handler's
`UPDATE enc_history_entries SET read_count = read_count + 1 WHERE device_id = ?`:
the match is on `device_id` alone. -/
def bumpReadCount (deviceId : String) (e : EncHistoryEntry) : EncHistoryEntry :=
  if e.deviceId == deviceId then { e with readCount := e.readCount + 1 } else e

/-- `apiQueryHandler` (server.go): update telemetry; increment
`read_count` of every row whose `device_id` is the polled device (the
user id is not part of that UPDATE); apply each pending deletion request
destined for `(deviceId, userId)`; then return the device's rows with
`read_count < 5`. -/
def apiQueryHandler (userId deviceId : String) (now : Nat) (s : ServerState) :
    ServerState × List EncHistoryEntry :=
  let s1 := updateUsageData userId deviceId 0 now s
  let s2 := { s1 with encHistoryEntries := s1.encHistoryEntries.map (bumpReadCount deviceId) }
  let pending := s2.deletionRequests.filter (fun dr =>
      dr.destinationDeviceId == deviceId && dr.userId == userId)
  let s3 := pending.foldl (fun acc dr => (applyDeletionRequestsToBackend dr acc).2) s2
  (s3, s3.encHistoryEntries.filter (fun e => e.deviceId == deviceId && e.readCount < 5))

/-- `apiRegisterHandler` (server.go): count the user's existing devices,
insert the new device row unconditionally, seed a dump request when the
pre-registration count was positive, and update telemetry. -/
def apiRegisterHandler (userId deviceId remoteAddr : String) (now : Nat)
    (s : ServerState) : ServerState :=
  let existingDevicesCount := (s.devices.filter (fun d => d.userId == userId)).length
  let s1 := { s with devices := s.devices ++
      [{ userId := userId, deviceId := deviceId, registrationIp := remoteAddr,
         registrationDate := now }] }
  let s2 :=
    if existingDevicesCount > 0 then
      { s1 with dumpRequests := s1.dumpRequests ++
          [{ userId := userId, requestingDeviceId := deviceId, requestTime := now }] }
    else s1
  updateUsageData userId deviceId 0 now s2

/-- `apiGetPendingDumpRequestsHandler` (server.go): read-only; return the
user's dump requests, excluding ones requested by the polling device
itself. -/
def apiGetPendingDumpRequestsHandler (userId deviceId : String) (s : ServerState) :
    List DumpRequest :=
  s.dumpRequests.filter (fun dr => dr.userId == userId && dr.requestingDeviceId != deviceId)

/-- The transaction body of `apiSubmitDumpHandler`: rewrite each entry's
mailbox to the requesting device, reject the whole batch when an entry's
user id disagrees with the query parameter, otherwise stage the row.
Returns the rows to commit, or the error that rolls everything back. -/
def submitDumpTx (userId requestingDeviceId : String)
    (acc : List EncHistoryEntry) :
    List EncHistoryEntry → Except String (List EncHistoryEntry)
  | [] => Except.ok acc
  | e :: rest =>
    let e1 := { e with deviceId := requestingDeviceId }
    if e1.userId != userId then
      Except.error ("batch contains an entry with UserId=" ++ e1.userId ++
        ", when the query param contained the user_id=" ++ userId)
    else
      submitDumpTx userId requestingDeviceId (acc ++ [e1]) rest

/-- `apiSubmitDumpHandler` (server.go): run the rewrite-and-insert
transaction; on failure the transaction is rolled back and the handler
panics with nothing committed.  On success, delete every dump request of
`(userId, requestingDeviceId)` and update the source device's
telemetry by the batch size. -/
def apiSubmitDumpHandler (userId srcDeviceId requestingDeviceId : String)
    (entries : List EncHistoryEntry) (now : Nat) (s : ServerState) :
    ServerState × Except String Unit :=
  match submitDumpTx userId requestingDeviceId [] entries with
  | Except.error msg => (s, Except.error msg)
  | Except.ok newRows =>
    let s1 := { s with encHistoryEntries := s.encHistoryEntries ++ newRows }
    let remainingRequests := s1.dumpRequests.filter (fun dr =>
        !(dr.userId == userId && dr.requestingDeviceId == requestingDeviceId))
    let s2 := { s1 with dumpRequests := remainingRequests }
    (updateUsageData userId srcDeviceId entries.length now s2, Except.ok ())

/-- `getDeletionRequestsHandler` (server.go): increment `read_count` of
the deletion requests destined for `(deviceId, userId)`, then return
them. -/
def getDeletionRequestsHandler (userId deviceId : String) (s : ServerState) :
    ServerState × List DeletionRequest :=
  let marked := s.deletionRequests.map (fun dr =>
      if dr.destinationDeviceId == deviceId && dr.userId == userId then
        { dr with readCount := dr.readCount + 1 }
      else dr)
  let s1 := { s with deletionRequests := marked }
  (s1, s1.deletionRequests.filter (fun dr =>
      dr.userId == userId && dr.destinationDeviceId == deviceId))

/-- `addDeletionRequestHandler` (server.go): zero the incoming read
count; look up the user's devices, panicking when none exist (before any
row is created); fan the request out with `DestinationDeviceId` set per
device; then eagerly apply the deletion against the entry store. -/
def addDeletionRequestHandler (request : DeletionRequest) (s : ServerState) :
    ServerState × Except String Unit :=
  let request1 := { request with readCount := 0 }
  let devices := s.devices.filter (fun d => d.userId == request1.userId)
  if devices.isEmpty then
    (s, Except.error ("found no devices associated with user_id=" ++ request1.userId))
  else
    let fannedOut := devices.map (fun d => { request1 with destinationDeviceId := d.deviceId })
    let s1 := { s with deletionRequests := s.deletionRequests ++ fannedOut }
    ((applyDeletionRequestsToBackend request1 s1).2, Except.ok ())

/-- `cleanDatabase` (server.go): delete entry rows with `read_count > 10`
and deletion requests with `read_count > 100`; nothing else. -/
def cleanDatabase (s : ServerState) : ServerState :=
  let keptEntries := s.encHistoryEntries.filter (fun e => !(e.readCount > 10))
  let keptRequests := s.deletionRequests.filter (fun dr => !(dr.readCount > 100))
  { s with encHistoryEntries := keptEntries, deletionRequests := keptRequests }

/-- Decimal digit accumulation, as `strconv.Atoi`'s digit loop. -/
def charsToNatAux (acc : Nat) : List Char → Nat
  | [] => acc
  | c :: rest => charsToNatAux (acc * 10 + (c.toNat - 48)) rest

/-- The all-digits parse of a (sign-stripped) `strconv.Atoi` argument:
`none` when empty or containing a non-digit. -/
def charsToNat? (cs : List Char) : Option Nat :=
  if cs.isEmpty then none
  else if cs.all (fun c => c.isDigit) then some (charsToNatAux 0 cs) else none

/-- `strconv.Atoi` as used by `decrementVersion`: an optional sign
followed by decimal digits; anything else is an error (`none`). -/
def goAtoi (str : String) : Option Int :=
  match str.toList with
  | [] => none
  | c :: rest =>
    if c = '-' then (charsToNat? rest).map (fun n => -(n : Int))
    else if c = '+' then (charsToNat? rest).map (fun n => (n : Int))
    else (charsToNat? (c :: rest)).map (fun n => (n : Int))

/-- `strings.Split` with a one-character separator, as
`strings.Split(version, ".")`: splits at every occurrence, keeping
empty fields. -/
def splitOnCharAux (sep : Char) (acc : List Char) : List Char → List (List Char)
  | [] => [acc.reverse]
  | c :: rest =>
    if c = sep then acc.reverse :: splitOnCharAux sep [] rest
    else splitOnCharAux sep (c :: acc) rest

def splitOnChar (sep : Char) (s : String) : List String :=
  (splitOnCharAux sep [] s.toList).map (fun cs => String.mk cs)

/-- `decrementVersion` (server.go): refuse `"UNKNOWN"`; split on `"."`;
require exactly two parts with a numeric second part; decrement the
numeric suffix. -/
def decrementVersion (version : String) : Except String String :=
  if version == "UNKNOWN" then Except.error "cannot decrement UNKNOWN"
  else
    match splitOnChar '.' version with
    | [p0, p1] =>
      match goAtoi p1 with
      | some versionNumber => Except.ok (p0 ++ "." ++ toString (versionNumber - 1))
      | none => Except.error ("invalid version: " ++ version)
    | _ => Except.error ("invalid version: " ++ version)

/-- `shared.UpdateInfo`, restricted to the fields `server.go` builds and
probes. -/
structure UpdateInfo where
  linuxAmd64Url : String
  linuxAmd64AttestationUrl : String
  darwinAmd64Url : String
  darwinAmd64UnsignedUrl : String
  darwinAmd64AttestationUrl : String
  darwinArm64Url : String
  darwinArm64UnsignedUrl : String
  darwinArm64AttestationUrl : String
  version : String
deriving DecidableEq, Repr

/-- `buildUpdateInfo` (server.go): the per-platform artifact URLs for a
release tag. -/
def buildUpdateInfo (version : String) : UpdateInfo :=
  let root := "https://github.com/ddworken/hishtory/releases/download/" ++ version ++ "/"
  { linuxAmd64Url := root ++ "hishtory-linux-amd64"
    linuxAmd64AttestationUrl := root ++ "hishtory-linux-amd64.intoto.jsonl"
    darwinAmd64Url := root ++ "hishtory-darwin-amd64"
    darwinAmd64UnsignedUrl := root ++ "hishtory-darwin-amd64-unsigned"
    darwinAmd64AttestationUrl := root ++ "hishtory-darwin-amd64.intoto.jsonl"
    darwinArm64Url := root ++ "hishtory-darwin-arm64"
    darwinArm64UnsignedUrl := root ++ "hishtory-darwin-arm64-unsigned"
    darwinArm64AttestationUrl := root ++ "hishtory-darwin-arm64.intoto.jsonl"
    version := version }

/-- The `urls` slice probed by `assertValidUpdate` (server.go). -/
def updateInfoUrls (u : UpdateInfo) : List String :=
  [u.linuxAmd64Url, u.linuxAmd64AttestationUrl,
   u.darwinAmd64Url, u.darwinAmd64UnsignedUrl, u.darwinAmd64AttestationUrl,
   u.darwinArm64Url, u.darwinArm64UnsignedUrl, u.darwinArm64AttestationUrl]

/-- `assertValidUpdate` (server.go), with the HTTP probe abstracted as an
oracle `probeFails` (true when the GET errors out or returns 404): fail
on the first bad artifact URL, succeed when all eight resolve. -/
def assertValidUpdate (probeFails : String → Bool) (updateInfo : UpdateInfo) :
    Except String Unit :=
  match (updateInfoUrls updateInfo).find? probeFails with
  | some url => Except.error ("URL " ++ url ++ " returned 404")
  | none => Except.ok ()

/-- The `for i := 0; i < 5; i++` loop of `decrementVersionIfInvalid`,
with the remaining iteration budget as fuel. -/
def decrementVersionLoop (probeFails : String → Bool) (initialVersion : String) :
    Nat → String → String
  | 0, _ => initialVersion
  | fuel + 1, version =>
    match assertValidUpdate probeFails (buildUpdateInfo version) with
    | Except.ok _ => version
    | Except.error _ =>
      match decrementVersion version with
      | Except.error _ => initialVersion
      | Except.ok next => decrementVersionLoop probeFails initialVersion fuel next

/-- `decrementVersionIfInvalid` (server.go): probe the tag's artifacts;
while invalid, decrement the numeric suffix and retry, at most 5
validity checks in total, returning the original tag when the loop
exhausts its budget or the tag cannot be decremented. -/
def decrementVersionIfInvalid (probeFails : String → Bool) (initialVersion : String) :
    String :=
  decrementVersionLoop probeFails initialVersion 5 initialVersion

/-- `n` successive `Query(userId, deviceId)` polls; the second component
is the list returned by the `n`-th poll (empty for `n = 0`). -/
def queryIter (userId deviceId : String) (now : Nat) :
    Nat → ServerState → ServerState × List EncHistoryEntry
  | 0, s => (s, [])
  | n + 1, s => apiQueryHandler userId deviceId now (queryIter userId deviceId now n s).1

/-- The rows appended to the entry store by a successful `Submit` batch:
the per-entry fan-out of `apiSubmitHandler`, concatenated in order. -/
def fanOutAll (devices : List Device) : List EncHistoryEntry → List EncHistoryEntry
  | [] => []
  | e :: rest =>
    submitFanOut e (devices.filter (fun d => d.userId == e.userId)) ++ fanOutAll devices rest

/-- `bumpReadCount` iterated `n` times, in closed form. -/
def bumpReadCountBy (deviceId : String) (n : Nat) (e : EncHistoryEntry) : EncHistoryEntry :=
  if e.deviceId == deviceId then { e with readCount := e.readCount + n } else e

/- Concrete fixtures used by witnesses and counterexamples. -/

/-- A user `"u"` with three registered devices `A`, `B`, `C`. -/
def exRegistered : ServerState :=
  apiRegisterHandler "u" "C" "ip3" 3
    (apiRegisterHandler "u" "B" "ip2" 2
      (apiRegisterHandler "u" "A" "ip1" 1 ServerState.empty))

/-- One logical history entry submitted from device `A` of user `"u"`. -/
def exEntry : EncHistoryEntry :=
  { userId := "u", deviceId := "A", encryptedData := "blob", date := 7,
    entryId := "id1", readCount := 0 }

/-- `exRegistered` after `Submit [exEntry]`: the entry fanned out to the
mailboxes of `A`, `B` and `C`. -/
def exSubmitted : ServerState := (apiSubmitHandler [exEntry] 4 exRegistered).1

/-- A deletion request naming `exEntry` once, by its `(deviceId, endTime)`
identity `("A", 7)`, as the client builds it. -/
def exDeletionRequest : DeletionRequest :=
  { userId := "u", destinationDeviceId := "",
    messages := [{ deviceId := "A", date := 7, entryId := "id1" }],
    sendTime := 5, readCount := 9 }

/-- A store holding `exEntry` in mailbox `A` together with a pending
deletion request for `(user "u", device "A")` naming it. -/
def exPendingDeletionState : ServerState :=
  { encHistoryEntries := [exEntry], devices := [], usageData := [],
    dumpRequests := [], deletionRequests :=
      [{ userId := "u", destinationDeviceId := "A",
         messages := [{ deviceId := "A", date := 7, entryId := "id1" }],
         sendTime := 5, readCount := 0 }] }

/-- A store with one pending dump request: device `C` of user `"u"` asks
to be bootstrapped. -/
def exDumpPending : ServerState :=
  { ServerState.empty with dumpRequests :=
      [{ userId := "u", requestingDeviceId := "C", requestTime := 0 }] }

/-- A well-formed dump batch entry for user `"u"`. -/
def exDumpEntry : EncHistoryEntry :=
  { userId := "u", deviceId := "B", encryptedData := "old", date := 2,
    entryId := "id0", readCount := 0 }

/-- A dump batch entry violating tenant isolation: its user is not `"u"`. -/
def exForeignEntry : EncHistoryEntry :=
  { userId := "x", deviceId := "B", encryptedData := "their", date := 3,
    entryId := "id9", readCount := 0 }

/-- An entry whose user has no registered device in `exRegistered`. -/
def exGhostEntry : EncHistoryEntry :=
  { userId := "ghost", deviceId := "Z", encryptedData := "zzz", date := 8,
    entryId := "id2", readCount := 0 }

/-- List-level prefix test (kernel-computable `startsWith`). -/
def charsStartWith : List Char → List Char → Bool
  | [], _ => true
  | _ :: _, [] => false
  | a :: as, b :: bs => a == b && charsStartWith as bs

/-- Artifact-probe oracle under which exactly the `v0.48` artifacts
exist: a GET fails unless the URL lives under the `v0.48` release. -/
def exProbe48 : String → Bool := fun url =>
  !(charsStartWith
    ("https://github.com/ddworken/hishtory/releases/download/v0.48/").toList url.toList)

/-- Artifact-probe oracle under which every artifact URL 404s. -/
def exProbeAllFail : String → Bool := fun _ => true

/-! ## Frame lemmas for telemetry -/

theorem updateUsageData_encHistoryEntries (u d : String) (n now : Nat) (s : ServerState) :
    (updateUsageData u d n now s).encHistoryEntries = s.encHistoryEntries := by
  unfold updateUsageData
  by_cases h : (s.usageData.filter (fun x => x.userId == u && x.deviceId == d)).isEmpty <;>
    simp [h]

theorem updateUsageData_devices (u d : String) (n now : Nat) (s : ServerState) :
    (updateUsageData u d n now s).devices = s.devices := by
  unfold updateUsageData
  by_cases h : (s.usageData.filter (fun x => x.userId == u && x.deviceId == d)).isEmpty <;>
    simp [h]

theorem updateUsageData_dumpRequests (u d : String) (n now : Nat) (s : ServerState) :
    (updateUsageData u d n now s).dumpRequests = s.dumpRequests := by
  unfold updateUsageData
  by_cases h : (s.usageData.filter (fun x => x.userId == u && x.deviceId == d)).isEmpty <;>
    simp [h]

theorem updateUsageData_deletionRequests (u d : String) (n now : Nat) (s : ServerState) :
    (updateUsageData u d n now s).deletionRequests = s.deletionRequests := by
  unfold updateUsageData
  by_cases h : (s.usageData.filter (fun x => x.userId == u && x.deviceId == d)).isEmpty <;>
    simp [h]

/-- C9: one janitor cycle deletes exactly the entry rows with
`readCount > 10` and exactly the deletion requests with
`readCount > 100`, leaving every other entry row, every other deletion
request, and the whole Device, UsageData and DumpRequest tables
unchanged. -/
theorem cleanDatabase_janitor_frame (s : ServerState) :
    (∀ e : EncHistoryEntry, e ∈ (cleanDatabase s).encHistoryEntries ↔
      e ∈ s.encHistoryEntries ∧ ¬e.readCount > 10) ∧
    (∀ dr : DeletionRequest, dr ∈ (cleanDatabase s).deletionRequests ↔
      dr ∈ s.deletionRequests ∧ ¬dr.readCount > 100) ∧
    (cleanDatabase s).devices = s.devices ∧
    (cleanDatabase s).usageData = s.usageData ∧
    (cleanDatabase s).dumpRequests = s.dumpRequests := by
  refine ⟨?_, ?_, rfl, rfl, rfl⟩ <;> intro x <;>
    simp [cleanDatabase, List.mem_filter]

/-- C7: `Register(userId, deviceId)` always appends a new Device row,
and appends a DumpRequest for the new device precisely when the number
of Device rows for the user counted before the insertion was positive;
the entry store and deletion requests are untouched.  (No uniqueness
constraint guards the device table — spec §6 puts one only on
UsageData — so a duplicate registration also just appends.) -/
theorem apiRegisterHandler_registration_seeding (u d ip : String) (now : Nat)
    (s : ServerState) :
    (apiRegisterHandler u d ip now s).devices =
      s.devices ++ [Device.mk u d ip now] ∧
    (apiRegisterHandler u d ip now s).dumpRequests =
      s.dumpRequests ++
        (if 0 < (s.devices.filter (fun x => x.userId == u)).length then
          [DumpRequest.mk u d now]
        else []) ∧
    (apiRegisterHandler u d ip now s).encHistoryEntries = s.encHistoryEntries ∧
    (apiRegisterHandler u d ip now s).deletionRequests = s.deletionRequests := by
  by_cases h : 0 < (s.devices.filter (fun x => x.userId == u)).length <;>
    simp [apiRegisterHandler, h, gt_iff_lt, updateUsageData_devices,
      updateUsageData_dumpRequests, updateUsageData_encHistoryEntries,
      updateUsageData_deletionRequests]

/-! ## Dump exchange -/

theorem submitDumpTx_error (u req : String) (entries : List EncHistoryEntry)
    (h : ∃ e ∈ entries, e.userId ≠ u) :
    ∀ acc : List EncHistoryEntry, ∃ msg, submitDumpTx u req acc entries = Except.error msg := by
  induction entries with
  | nil => simp at h
  | cons e rest ih =>
    intro acc
    obtain ⟨x, hx, hxu⟩ := h
    by_cases he : e.userId = u
    · have hxr : x ∈ rest := by
        rcases List.mem_cons.1 hx with h1 | h1
        · exact absurd (h1 ▸ hxu) (by simp [he])
        · exact h1
      obtain ⟨msg, hmsg⟩ := ih ⟨x, hxr, hxu⟩ (acc ++ [{ e with deviceId := req }])
      refine ⟨msg, ?_⟩
      simp only [submitDumpTx]
      rw [if_neg (by simp [he])]
      exact hmsg
    · exact ⟨"batch contains an entry with UserId=" ++ e.userId ++
        ", when the query param contained the user_id=" ++ u, by simp [submitDumpTx, he]⟩

theorem apiSubmitDumpHandler_ok_dumpRequests (u src req : String)
    (entries : List EncHistoryEntry) (now : Nat) (s : ServerState)
    (hok : (apiSubmitDumpHandler u src req entries now s).2 = Except.ok ()) :
    (apiSubmitDumpHandler u src req entries now s).1.dumpRequests =
      s.dumpRequests.filter (fun dr => !(dr.userId == u && dr.requestingDeviceId == req)) := by
  unfold apiSubmitDumpHandler at hok ⊢
  cases h : submitDumpTx u req [] entries with
  | error msg => rw [h] at hok; simp at hok
  | ok rows => simp [h, updateUsageData_dumpRequests]

/-- C4: a `SubmitDump` whose batch contains an entry owned by a
different user fails as a whole: the handler panics with the store left
exactly as it was — no entry row inserted, the pending dump request not
deleted, telemetry untouched. -/
theorem apiSubmitDumpHandler_tenant_isolation (u src req : String)
    (entries : List EncHistoryEntry) (now : Nat) (s : ServerState)
    (h : ∃ e ∈ entries, e.userId ≠ u) :
    (apiSubmitDumpHandler u src req entries now s).1 = s ∧
    ∃ msg, (apiSubmitDumpHandler u src req entries now s).2 = Except.error msg := by
  obtain ⟨msg, hmsg⟩ := submitDumpTx_error u req entries h []
  constructor
  · simp [apiSubmitDumpHandler, hmsg]
  · exact ⟨msg, by simp [apiSubmitDumpHandler, hmsg]⟩

/-- Witness for C4 at a concrete input: a two-entry batch whose second
entry belongs to user `"x"` while the call is for user `"u"`; the store
is returned unchanged. -/
theorem apiSubmitDumpHandler_tenant_isolation_witness :
    (apiSubmitDumpHandler "u" "B" "C" [exDumpEntry, exForeignEntry] 9 exDumpPending).1 =
      exDumpPending :=
  (apiSubmitDumpHandler_tenant_isolation "u" "B" "C" [exDumpEntry, exForeignEntry] 9
    exDumpPending ⟨exForeignEntry, by decide, by decide⟩).1

/-- C8: `GetPendingDumpRequests(userId, deviceId)` returns exactly the
user's pending dump requests whose requesting device differs from the
polling device (never the poller's own request); and once a
`SubmitDump` for `(userId, requestingDeviceId)` succeeds, no dump
request for that pair survives in the store, so a poll by any peer
returns none for that pair. -/
theorem dumpExchange_convergence (u d src req : String)
    (entries : List EncHistoryEntry) (now : Nat) (s : ServerState)
    (hok : (apiSubmitDumpHandler u src req entries now s).2 = Except.ok ()) :
    apiGetPendingDumpRequestsHandler u d s =
      s.dumpRequests.filter (fun dr => dr.userId == u && dr.requestingDeviceId != d) ∧
    (∀ dr ∈ apiGetPendingDumpRequestsHandler u d s,
      dr.userId = u ∧ dr.requestingDeviceId ≠ d) ∧
    (∀ dr ∈ (apiSubmitDumpHandler u src req entries now s).1.dumpRequests,
      ¬(dr.userId = u ∧ dr.requestingDeviceId = req)) ∧
    (∀ d1 : String,
      ∀ dr ∈ apiGetPendingDumpRequestsHandler u d1 (apiSubmitDumpHandler u src req entries now s).1,
        dr.requestingDeviceId ≠ req) := by
  have hreq := apiSubmitDumpHandler_ok_dumpRequests u src req entries now s hok
  refine ⟨rfl, ?_, ?_, ?_⟩
  · intro dr hdr
    simp [apiGetPendingDumpRequestsHandler, List.mem_filter] at hdr
    exact ⟨hdr.2.1, hdr.2.2⟩
  · intro dr hdr
    rw [hreq] at hdr
    simp [List.mem_filter] at hdr
    rintro ⟨hu1, hr1⟩
    rcases hdr.2 with h1 | h1
    · exact h1 hu1
    · exact h1 hr1
  · intro d1 dr hdr
    simp [apiGetPendingDumpRequestsHandler, List.mem_filter] at hdr
    have hmem := hdr.1
    have hu := hdr.2.1
    rw [hreq] at hmem
    simp [List.mem_filter] at hmem
    intro hcontra
    rcases hmem.2 with h1 | h1
    · exact h1 hu
    · exact h1 hcontra

/-! ## Deletion propagation -/

/-- Counterexample to C1 as stated: one logical entry fanned out to the
three mailboxes `A`, `B`, `C`, then a deletion request naming it once by
its `("A", 7)` identity.  The eager delete matches
`user_id AND device_id AND date`, so only mailbox `A`'s copy is
removed — the copies in mailboxes `B` and `C` survive, refuting
"naming it once removes all three mailbox copies". -/
theorem addDeletionRequest_breadth_counterexample :
    ({ exEntry with deviceId := "B" } : EncHistoryEntry) ∈
      (addDeletionRequestHandler exDeletionRequest exSubmitted).1.encHistoryEntries ∧
    (addDeletionRequestHandler exDeletionRequest exSubmitted).1.encHistoryEntries =
      [{ exEntry with deviceId := "B" }, { exEntry with deviceId := "C" }] :=
  ⟨by decide, by decide⟩

/-- C1 (amended): a successful `AddDeletionRequest` eagerly deletes
exactly the entry rows matching some named `(userId, deviceId, endTime)`
triple — across the whole entry store, not restricted to the
destination mailbox — and leaves every non-matching row (in particular
every fanned-out copy whose own mailbox `deviceId` is not named) in
place. -/
theorem addDeletionRequest_eager_exact (request : DeletionRequest) (s : ServerState)
    (hok : (addDeletionRequestHandler request s).2 = Except.ok ()) :
    (addDeletionRequestHandler request s).1.encHistoryEntries =
      s.encHistoryEntries.filter (fun e => !(matchesDeletionRequest request e)) ∧
    (∀ e ∈ (addDeletionRequestHandler request s).1.encHistoryEntries,
      matchesDeletionRequest request e = false) ∧
    (∀ e ∈ s.encHistoryEntries, matchesDeletionRequest request e = false →
      e ∈ (addDeletionRequestHandler request s).1.encHistoryEntries) := by
  by_cases hdev : (s.devices.filter (fun d => d.userId == request.userId)).isEmpty
  · exfalso
    unfold addDeletionRequestHandler at hok
    simp [hdev] at hok
  · have h1 : (addDeletionRequestHandler request s).1.encHistoryEntries =
        s.encHistoryEntries.filter (fun e => !(matchesDeletionRequest request e)) := by
      unfold addDeletionRequestHandler
      simp [hdev, applyDeletionRequestsToBackend]
      rfl
    refine ⟨h1, ?_, ?_⟩
    · intro e he
      rw [h1] at he
      simp [List.mem_filter] at he
      exact he.2
    · intro e he hm
      rw [h1]
      simp [List.mem_filter]
      exact ⟨he, by simp [hm]⟩

/-- Witness for the amended C1 at the concrete three-device scenario. -/
theorem addDeletionRequest_eager_exact_witness :
    (addDeletionRequestHandler exDeletionRequest exSubmitted).1.encHistoryEntries =
      exSubmitted.encHistoryEntries.filter
        (fun e => !(matchesDeletionRequest exDeletionRequest e)) :=
  (addDeletionRequest_eager_exact exDeletionRequest exSubmitted rfl).1

/-! ## Query and the userId parameter -/

/-- When no deletion request pending for `(deviceId, userId)` exists, a
`Query` bumps every row of the device's mailbox and returns exactly the
bumped rows of that mailbox with `readCount < 5`; the deletion-request
table is untouched. -/
theorem apiQueryHandler_noPending (u d : String) (now : Nat) (s : ServerState)
    (hdel : s.deletionRequests.filter
      (fun dr => dr.destinationDeviceId == d && dr.userId == u) = []) :
    (apiQueryHandler u d now s).1.encHistoryEntries =
      s.encHistoryEntries.map (bumpReadCount d) ∧
    (apiQueryHandler u d now s).1.deletionRequests = s.deletionRequests ∧
    (apiQueryHandler u d now s).2 =
      (s.encHistoryEntries.map (bumpReadCount d)).filter
        (fun e => e.deviceId == d && e.readCount < 5) := by
  unfold apiQueryHandler
  simp [updateUsageData_encHistoryEntries, updateUsageData_deletionRequests, hdel]

/-- Counterexample to C10 as stated: a store holding one mailbox-`A` row
of user `"u"` and a pending deletion request for `("u", "A")` naming it.
`Query("u", "A")` applies the deletion and returns nothing, while
`Query("u2", "A")` — differing only in the supplied userId — skips the
deletion and returns the row. -/
theorem apiQueryHandler_userId_counterexample :
    (apiQueryHandler "u" "A" 6 exPendingDeletionState).2 = [] ∧
    (apiQueryHandler "u2" "A" 6 exPendingDeletionState).2 =
      [{ exEntry with readCount := 1 }] :=
  ⟨by decide, by decide⟩

/-- C10 (amended): provided the store holds no pending deletion request
for the polled `deviceId`, two `Query` calls differing only in the
supplied userId perform the same `readCount` increments (identical
resulting entry stores) and return the same entry rows: both the
increment and the retrieval filter match on `deviceId` alone. -/
theorem apiQueryHandler_userId_immaterial (u1 u2 d : String) (now : Nat)
    (s : ServerState)
    (h : ∀ dr ∈ s.deletionRequests, dr.destinationDeviceId ≠ d) :
    (apiQueryHandler u1 d now s).1.encHistoryEntries =
      (apiQueryHandler u2 d now s).1.encHistoryEntries ∧
    (apiQueryHandler u1 d now s).2 = (apiQueryHandler u2 d now s).2 := by
  have hdel : ∀ u : String, s.deletionRequests.filter
      (fun dr => dr.destinationDeviceId == d && dr.userId == u) = [] := by
    intro u
    refine List.filter_eq_nil_iff.mpr ?_
    intro dr hdr
    simp [h dr hdr]
  obtain ⟨e1, _, r1⟩ := apiQueryHandler_noPending u1 d now s (hdel u1)
  obtain ⟨e2, _, r2⟩ := apiQueryHandler_noPending u2 d now s (hdel u2)
  exact ⟨by rw [e1, e2], by rw [r1, r2]⟩

/-- Witness for the amended C10: with no pending deletion requests, the
polls for two different claimed userIds return the same rows. -/
theorem apiQueryHandler_userId_immaterial_witness :
    (apiQueryHandler "u" "A" 6 exSubmitted).2 = (apiQueryHandler "v" "A" 6 exSubmitted).2 :=
  (apiQueryHandler_userId_immaterial "u" "v" "A" 6 exSubmitted (by decide)).2

/-! ## Submission fan-out -/

theorem submitEntries_cons_found (now : Nat) (s : ServerState) (e : EncHistoryEntry)
    (rest : List EncHistoryEntry)
    (he : ((updateUsageData e.userId e.deviceId 1 now s).devices.filter
      (fun d => d.userId == e.userId)).isEmpty = false) :
    submitEntries now s (e :: rest) =
      submitEntries now
        { updateUsageData e.userId e.deviceId 1 now s with
          encHistoryEntries := (updateUsageData e.userId e.deviceId 1 now s).encHistoryEntries ++
            submitFanOut e ((updateUsageData e.userId e.deviceId 1 now s).devices.filter
              (fun d => d.userId == e.userId)) }
        rest := by
  simp only [submitEntries]
  rw [if_neg (by simp [he])]

theorem submitEntries_cons_missing (now : Nat) (s : ServerState) (e : EncHistoryEntry)
    (rest : List EncHistoryEntry)
    (he : ((updateUsageData e.userId e.deviceId 1 now s).devices.filter
      (fun d => d.userId == e.userId)).isEmpty = true) :
    submitEntries now s (e :: rest) =
      (updateUsageData e.userId e.deviceId 1 now s,
       Except.error ("found no devices associated with user_id=" ++ e.userId)) := by
  simp only [submitEntries]
  rw [if_pos he]

theorem submitEntries_ok_characterization (now : Nat) (l : List EncHistoryEntry) :
    ∀ s : ServerState,
      (∀ e ∈ l, (s.devices.filter (fun d => d.userId == e.userId)).isEmpty = false) →
      (submitEntries now s l).2 = Except.ok () ∧
      (submitEntries now s l).1.encHistoryEntries =
        s.encHistoryEntries ++ fanOutAll s.devices l ∧
      (submitEntries now s l).1.devices = s.devices := by
  induction l with
  | nil => intro s _; exact ⟨rfl, by simp [submitEntries, fanOutAll], rfl⟩
  | cons e rest ih =>
    intro s h
    have he : ((updateUsageData e.userId e.deviceId 1 now s).devices.filter
        (fun d => d.userId == e.userId)).isEmpty = false := by
      rw [updateUsageData_devices]
      exact h e (List.mem_cons_self e rest)
    rw [submitEntries_cons_found now s e rest he]
    obtain ⟨ihok, ihentries, ihdevices⟩ := ih
      { updateUsageData e.userId e.deviceId 1 now s with
        encHistoryEntries := (updateUsageData e.userId e.deviceId 1 now s).encHistoryEntries ++
          submitFanOut e ((updateUsageData e.userId e.deviceId 1 now s).devices.filter
            (fun d => d.userId == e.userId)) }
      (by
        intro x hx
        simp only [updateUsageData_devices]
        exact h x (List.mem_cons_of_mem e hx))
    refine ⟨ihok, ihentries.trans ?_, ihdevices.trans ?_⟩
    · simp [fanOutAll, updateUsageData_encHistoryEntries, updateUsageData_devices,
        List.append_assoc]
    · simp [updateUsageData_devices]

theorem submitEntries_err_characterization (now : Nat) (bad : EncHistoryEntry)
    (rest : List EncHistoryEntry) (pre : List EncHistoryEntry) :
    ∀ s : ServerState,
      (∀ e ∈ pre, (s.devices.filter (fun d => d.userId == e.userId)).isEmpty = false) →
      (s.devices.filter (fun d => d.userId == bad.userId)).isEmpty = true →
      (∃ msg, (submitEntries now s (pre ++ bad :: rest)).2 = Except.error msg) ∧
      (submitEntries now s (pre ++ bad :: rest)).1.encHistoryEntries =
        s.encHistoryEntries ++ fanOutAll s.devices pre := by
  induction pre with
  | nil =>
    intro s _ hbad
    have hbadS : ((updateUsageData bad.userId bad.deviceId 1 now s).devices.filter
        (fun d => d.userId == bad.userId)).isEmpty = true := by
      rw [updateUsageData_devices]
      exact hbad
    rw [List.nil_append, submitEntries_cons_missing now s bad rest hbadS]
    exact ⟨⟨_, rfl⟩, by simp [fanOutAll, updateUsageData_encHistoryEntries]⟩
  | cons e pre ih =>
    intro s h hbad
    have he : ((updateUsageData e.userId e.deviceId 1 now s).devices.filter
        (fun d => d.userId == e.userId)).isEmpty = false := by
      rw [updateUsageData_devices]
      exact h e (List.mem_cons_self e pre)
    rw [List.cons_append, submitEntries_cons_found now s e (pre ++ bad :: rest) he]
    obtain ⟨iherr, ihentries⟩ := ih
      { updateUsageData e.userId e.deviceId 1 now s with
        encHistoryEntries := (updateUsageData e.userId e.deviceId 1 now s).encHistoryEntries ++
          submitFanOut e ((updateUsageData e.userId e.deviceId 1 now s).devices.filter
            (fun d => d.userId == e.userId)) }
      (by
        intro x hx
        simp only [updateUsageData_devices]
        exact h x (List.mem_cons_of_mem e hx))
      (by simp only [updateUsageData_devices]; exact hbad)
    refine ⟨iherr, ihentries.trans ?_⟩
    simp [fanOutAll, updateUsageData_encHistoryEntries, updateUsageData_devices,
      List.append_assoc]

/-- C3: submitting one entry for a user with a non-empty registered
device set appends exactly one copy per registered device, with the
mailbox id rewritten to that device's id; when the device ids are
distinct and the copies are fresh, each mailbox ends up holding the
entry exactly once. -/
theorem apiSubmitHandler_fanout_complete (e : EncHistoryEntry) (now : Nat) (s : ServerState)
    (hds : (s.devices.filter (fun d => d.userId == e.userId)).isEmpty = false) :
    (apiSubmitHandler [e] now s).2 = Except.ok () ∧
    (apiSubmitHandler [e] now s).1.encHistoryEntries =
      s.encHistoryEntries ++
        (s.devices.filter (fun d => d.userId == e.userId)).map
          (fun d => { e with deviceId := d.deviceId }) ∧
    (((s.devices.filter (fun d => d.userId == e.userId)).map
        (fun d => d.deviceId)).Nodup →
      (∀ d ∈ s.devices.filter (fun d => d.userId == e.userId),
        ({ e with deviceId := d.deviceId } : EncHistoryEntry) ∉ s.encHistoryEntries) →
      ∀ d ∈ s.devices.filter (fun d => d.userId == e.userId),
        (apiSubmitHandler [e] now s).1.encHistoryEntries.count
          { e with deviceId := d.deviceId } = 1) := by
  obtain ⟨hok, hentries, _⟩ := submitEntries_ok_characterization now [e] s
    (by intro x hx; rw [List.mem_singleton] at hx; rw [hx]; exact hds)
  have h2 : (apiSubmitHandler [e] now s).1.encHistoryEntries =
      s.encHistoryEntries ++
        (s.devices.filter (fun d => d.userId == e.userId)).map
          (fun d => { e with deviceId := d.deviceId }) := by
    refine hentries.trans ?_
    simp [fanOutAll, submitFanOut]
  refine ⟨hok, h2, ?_⟩
  intro hnodup hfresh d hd
  have hinj : Function.Injective
      (fun x : String => ({ e with deviceId := x } : EncHistoryEntry)) := by
    intro a b hab
    exact congrArg EncHistoryEntry.deviceId hab
  have hmm : (s.devices.filter (fun d => d.userId == e.userId)).map
        (fun d => ({ e with deviceId := d.deviceId } : EncHistoryEntry)) =
      ((s.devices.filter (fun d => d.userId == e.userId)).map
        (fun d => d.deviceId)).map
          (fun x => ({ e with deviceId := x } : EncHistoryEntry)) := by
    rw [List.map_map]
    rfl
  rw [h2, List.count_append, List.count_eq_zero.2 (hfresh d hd), hmm,
    List.count_map_of_injective _ _ hinj,
    List.count_eq_one_of_mem hnodup (List.mem_map_of_mem _ hd)]

/-- Witness for C3: fanning `exEntry` out to the three devices of user
`"u"`; afterwards mailbox `B` holds it exactly once. -/
theorem apiSubmitHandler_fanout_complete_witness :
    (apiSubmitHandler [exEntry] 4 exRegistered).2 = Except.ok () ∧
    (apiSubmitHandler [exEntry] 4 exRegistered).1.encHistoryEntries.count
      { exEntry with deviceId := "B" } = 1 := by
  have hthm := apiSubmitHandler_fanout_complete exEntry 4 exRegistered (by decide)
  exact ⟨hthm.1, hthm.2.2 (by decide) (by decide) (Device.mk "u" "B" "ip2" 2) (by decide)⟩

/-- C6: a submit batch succeeds (no panic) when every entry's user has
at least one registered device; and as soon as an entry's user has
zero registered devices, the handler panics at that entry, having
inserted mailbox rows only for the earlier entries — none for the
failing one. -/
theorem apiSubmitHandler_zero_device_failure (entries pre rest : List EncHistoryEntry)
    (bad : EncHistoryEntry) (now : Nat) (s : ServerState) :
    ((∀ e ∈ entries, (s.devices.filter (fun d => d.userId == e.userId)).isEmpty = false) →
      (apiSubmitHandler entries now s).2 = Except.ok ()) ∧
    ((∀ e ∈ pre, (s.devices.filter (fun d => d.userId == e.userId)).isEmpty = false) →
      (s.devices.filter (fun d => d.userId == bad.userId)).isEmpty = true →
      (∃ msg, (apiSubmitHandler (pre ++ bad :: rest) now s).2 = Except.error msg) ∧
      (apiSubmitHandler (pre ++ bad :: rest) now s).1.encHistoryEntries =
        s.encHistoryEntries ++ fanOutAll s.devices pre) := by
  constructor
  · intro h
    exact (submitEntries_ok_characterization now entries s h).1
  · intro hpre hbad
    exact submitEntries_err_characterization now bad rest pre s hpre hbad

/-- Witness for C6: submitting for registered user `"u"` succeeds, while
a batch whose second entry belongs to the unregistered user `"ghost"`
leaves only the first entry's fan-out in the store. -/
theorem apiSubmitHandler_zero_device_failure_witness :
    (apiSubmitHandler [exEntry] 4 exRegistered).2 = Except.ok () ∧
    (apiSubmitHandler [exEntry, exGhostEntry] 4 exRegistered).1.encHistoryEntries =
      exRegistered.encHistoryEntries ++ fanOutAll exRegistered.devices [exEntry] :=
  ⟨(apiSubmitHandler_zero_device_failure [exEntry] [exEntry] [] exGhostEntry 4
      exRegistered).1 (by decide),
   ((apiSubmitHandler_zero_device_failure [exEntry] [exEntry] [] exGhostEntry 4
      exRegistered).2 (by decide) (by decide)).2⟩

/-! ## Bounded redelivery -/

theorem bumpReadCountBy_zero (d : String) (e : EncHistoryEntry) :
    bumpReadCountBy d 0 e = e := by
  unfold bumpReadCountBy
  by_cases h : e.deviceId == d <;> simp [h]

theorem bumpReadCount_comp (d : String) (n : Nat) (e : EncHistoryEntry) :
    bumpReadCount d (bumpReadCountBy d n e) = bumpReadCountBy d (n + 1) e := by
  unfold bumpReadCount bumpReadCountBy
  by_cases h : e.deviceId == d <;> simp [h, Nat.add_assoc]

theorem map_bumpReadCountBy_zero (d : String) (l : List EncHistoryEntry) :
    l.map (bumpReadCountBy d 0) = l := by
  induction l with
  | nil => rfl
  | cons a t ih => simp [bumpReadCountBy_zero, ih]

theorem queryIter_noPending (u d : String) (now : Nat) (n : Nat) (s : ServerState)
    (h : s.deletionRequests.filter
      (fun dr => dr.destinationDeviceId == d && dr.userId == u) = []) :
    (queryIter u d now n s).1.encHistoryEntries =
      s.encHistoryEntries.map (bumpReadCountBy d n) ∧
    (queryIter u d now n s).1.deletionRequests = s.deletionRequests := by
  induction n with
  | zero => exact ⟨(map_bumpReadCountBy_zero d s.encHistoryEntries).symm, rfl⟩
  | succ n ih =>
    obtain ⟨ihe, ihd⟩ := ih
    have hfilter : (queryIter u d now n s).1.deletionRequests.filter
        (fun dr => dr.destinationDeviceId == d && dr.userId == u) = [] := by
      rw [ihd]; exact h
    obtain ⟨qe, qd, _⟩ := apiQueryHandler_noPending u d now (queryIter u d now n s).1 hfilter
    constructor
    · show (apiQueryHandler u d now (queryIter u d now n s).1).1.encHistoryEntries = _
      rw [qe, ihe, List.map_map]
      have hcomp : (bumpReadCount d ∘ bumpReadCountBy d n) = bumpReadCountBy d (n + 1) :=
        funext fun e => bumpReadCount_comp d n e
      rw [hcomp]
    · show (apiQueryHandler u d now (queryIter u d now n s).1).1.deletionRequests = _
      rw [qd, ihd]

theorem queryIter_return (u d : String) (now : Nat) (n : Nat) (s : ServerState)
    (h : s.deletionRequests.filter
      (fun dr => dr.destinationDeviceId == d && dr.userId == u) = []) :
    (queryIter u d now (n + 1) s).2 =
      (s.encHistoryEntries.map (bumpReadCountBy d (n + 1))).filter
        (fun e => e.deviceId == d && e.readCount < 5) := by
  obtain ⟨ihe, ihd⟩ := queryIter_noPending u d now n s h
  have hfilter : (queryIter u d now n s).1.deletionRequests.filter
      (fun dr => dr.destinationDeviceId == d && dr.userId == u) = [] := by
    rw [ihd]; exact h
  obtain ⟨_, _, qr⟩ := apiQueryHandler_noPending u d now (queryIter u d now n s).1 hfilter
  show (apiQueryHandler u d now (queryIter u d now n s).1).2 = _
  rw [qr, ihe, List.map_map]
  have hcomp : (bumpReadCount d ∘ bumpReadCountBy d n) = bumpReadCountBy d (n + 1) :=
    funext fun e => bumpReadCount_comp d n e
  rw [hcomp]

/-- C2: a `Query` bumps the read count of every row of the polled
mailbox before reading, and returns exactly the mailbox's rows with
`readCount < 5` afterwards; consequently a row created with
`readCount 0` is returned by polls 1 through 4 and excluded from poll 5
onward, while `Bootstrap` (which ignores the read-count gate) still
returns it. -/
theorem query_bounded_redelivery (s : ServerState) (u d : String) (now : Nat)
    (e : EncHistoryEntry) (n : Nat)
    (he : e ∈ s.encHistoryEntries) (hd : e.deviceId = d) (hr : e.readCount = 0)
    (hu : e.userId = u)
    (hdel : s.deletionRequests.filter
      (fun dr => dr.destinationDeviceId == d && dr.userId == u) = []) :
    ((apiQueryHandler u d now s).1.encHistoryEntries =
      s.encHistoryEntries.map (bumpReadCount d) ∧
     (apiQueryHandler u d now s).2 =
       (apiQueryHandler u d now s).1.encHistoryEntries.filter
         (fun x => x.deviceId == d && x.readCount < 5)) ∧
    (1 ≤ n → n < 5 →
      ({ e with readCount := n } : EncHistoryEntry) ∈ (queryIter u d now n s).2) ∧
    (5 ≤ n →
      ({ e with readCount := n } : EncHistoryEntry) ∉ (queryIter u d now n s).2) ∧
    ({ e with readCount := n } : EncHistoryEntry) ∈
      (apiBootstrapHandler u d now (queryIter u d now n s).1).2 := by
  have himg : bumpReadCountBy d n e = { e with readCount := n } := by
    unfold bumpReadCountBy
    simp [hd, hr]
  refine ⟨⟨(apiQueryHandler_noPending u d now s hdel).1, rfl⟩, ?_, ?_, ?_⟩
  · intro h1 h5
    cases n with
    | zero => omega
    | succ m =>
      rw [queryIter_return u d now m s hdel]
      refine List.mem_filter.mpr ⟨himg ▸ List.mem_map_of_mem (bumpReadCountBy d (m + 1)) he, ?_⟩
      simp [hd, h5]
  · intro h5 hmem
    cases n with
    | zero => omega
    | succ m =>
      rw [queryIter_return u d now m s hdel] at hmem
      have := (List.mem_filter.mp hmem).2
      simp at this
      omega
  · have hboot : (apiBootstrapHandler u d now (queryIter u d now n s).1).2 =
        (queryIter u d now n s).1.encHistoryEntries.filter (fun x => x.userId == u) := by
      simp [apiBootstrapHandler, updateUsageData_encHistoryEntries]
    rw [hboot, (queryIter_noPending u d now n s hdel).1]
    refine List.mem_filter.mpr ⟨himg ▸ List.mem_map_of_mem (bumpReadCountBy d n) he, ?_⟩
    simp [hu]

/-- Witness for C2: in the fanned-out three-device store, poll 3 of
mailbox `A` still returns the entry (read count 3), poll 5's state still
lets `Bootstrap` see it. -/
theorem query_bounded_redelivery_witness :
    ({ exEntry with readCount := 3 } : EncHistoryEntry) ∈
      (queryIter "u" "A" 6 3 exSubmitted).2 ∧
    ({ exEntry with readCount := 5 } : EncHistoryEntry) ∈
      (apiBootstrapHandler "u" "A" 6 (queryIter "u" "A" 6 5 exSubmitted).1).2 :=
  ⟨(query_bounded_redelivery exSubmitted "u" "A" 6 exEntry 3 (by decide) rfl rfl rfl
      (by decide)).2.1 (by decide) (by decide),
   (query_bounded_redelivery exSubmitted "u" "A" 6 exEntry 5 (by decide) rfl rfl rfl
      (by decide)).2.2.2⟩

/-! ## Release resolver -/

theorem decrementVersionLoop_succ (p : String → Bool) (i : String) (fuel : Nat)
    (v : String) :
    decrementVersionLoop p i (fuel + 1) v =
      match assertValidUpdate p (buildUpdateInfo v) with
      | Except.ok _ => v
      | Except.error _ =>
        match decrementVersion v with
        | Except.error _ => i
        | Except.ok next => decrementVersionLoop p i fuel next := rfl

theorem decrementVersionLoop_allInvalid (p : String → Bool) (i : String)
    (h : ∀ w : String, ∃ m, assertValidUpdate p (buildUpdateInfo w) = Except.error m) :
    ∀ (fuel : Nat) (v : String), decrementVersionLoop p i fuel v = i := by
  intro fuel
  induction fuel with
  | zero => intro v; rfl
  | succ n ih =>
    intro v
    obtain ⟨m, hm⟩ := h v
    rw [decrementVersionLoop_succ, hm]
    cases hd : decrementVersion v with
    | error msg => simp [hd]
    | ok next => simp [hd, ih next]

/-- C5: with artifact validity abstracted as the probe oracle,
`decrementVersionIfInvalid "v0.50"` returns `"v0.48"` when the `v0.50`
and `v0.49` artifacts are missing and the `v0.48` artifacts all exist;
and the original input is returned unchanged when no probed version is
valid, or when the input cannot be decremented (e.g. `"UNKNOWN"` or a
tag without a `prefix.number` shape). -/
theorem decrementVersionIfInvalid_spec (probeFails : String → Bool) :
    ((∃ m, assertValidUpdate probeFails (buildUpdateInfo "v0.50") = Except.error m) →
     (∃ m, assertValidUpdate probeFails (buildUpdateInfo "v0.49") = Except.error m) →
     assertValidUpdate probeFails (buildUpdateInfo "v0.48") = Except.ok () →
     decrementVersionIfInvalid probeFails "v0.50" = "v0.48") ∧
    (∀ v : String,
      (∀ w : String, ∃ m, assertValidUpdate probeFails (buildUpdateInfo w) = Except.error m) →
      decrementVersionIfInvalid probeFails v = v) ∧
    (∀ v : String, (∃ m, decrementVersion v = Except.error m) →
      decrementVersionIfInvalid probeFails v = v) := by
  refine ⟨?_, ?_, ?_⟩
  · intro h50 h49 h48
    obtain ⟨m50, h50⟩ := h50
    obtain ⟨m49, h49⟩ := h49
    have d50 : decrementVersion "v0.50" = Except.ok "v0.49" := rfl
    have d49 : decrementVersion "v0.49" = Except.ok "v0.48" := rfl
    show decrementVersionLoop probeFails "v0.50" 5 "v0.50" = "v0.48"
    calc decrementVersionLoop probeFails "v0.50" 5 "v0.50"
        = decrementVersionLoop probeFails "v0.50" 4 "v0.49" := by
          rw [show (5 : Nat) = 4 + 1 from rfl, decrementVersionLoop_succ, h50, d50]
      _ = decrementVersionLoop probeFails "v0.50" 3 "v0.48" := by
          rw [show (4 : Nat) = 3 + 1 from rfl, decrementVersionLoop_succ, h49, d49]
      _ = "v0.48" := by
          rw [show (3 : Nat) = 2 + 1 from rfl, decrementVersionLoop_succ, h48]
  · intro v h
    exact decrementVersionLoop_allInvalid probeFails v h 5 v
  · intro v hv
    obtain ⟨m, hm⟩ := hv
    show decrementVersionLoop probeFails v 5 v = v
    rw [show (5 : Nat) = 4 + 1 from rfl, decrementVersionLoop_succ]
    cases ha : assertValidUpdate probeFails (buildUpdateInfo v) with
    | ok u => rfl
    | error m2 => simp [hm]

/-- Witness for C5: under the concrete oracle where only the `v0.48`
artifacts exist, `"v0.50"` resolves to `"v0.48"`; under the
everything-404s oracle the input comes back unchanged, as does
`"UNKNOWN"`, which cannot be decremented. -/
theorem decrementVersionIfInvalid_spec_witness :
    decrementVersionIfInvalid exProbe48 "v0.50" = "v0.48" ∧
    decrementVersionIfInvalid exProbeAllFail "v0.50" = "v0.50" ∧
    decrementVersionIfInvalid exProbe48 "UNKNOWN" = "UNKNOWN" :=
  ⟨(decrementVersionIfInvalid_spec exProbe48).1 ⟨_, rfl⟩ ⟨_, rfl⟩ rfl,
   (decrementVersionIfInvalid_spec exProbeAllFail).2.1 "v0.50" (fun _ => ⟨_, rfl⟩),
   (decrementVersionIfInvalid_spec exProbe48).2.2 "UNKNOWN" ⟨_, rfl⟩⟩

/-- Witness for C8 at a concrete input: device `B` services `C`'s
pending dump request with a well-formed one-entry batch; the hypothesis
(the dump succeeds) holds by computation. -/
theorem dumpExchange_convergence_witness :
    apiGetPendingDumpRequestsHandler "u" "B" exDumpPending =
      exDumpPending.dumpRequests.filter
        (fun dr => dr.userId == "u" && dr.requestingDeviceId != "B") :=
  (dumpExchange_convergence "u" "B" "B" "C" [exDumpEntry] 9 exDumpPending rfl).1
